import Mathlib

/-!
Shallow embedding of the chemical-visualizer backend ingestion pipeline
(`src/backend/analytics/views.py` and `src/backend/analytics/models.py`).

Modelling conventions:
* A parsed CSV cell (the result of `pandas.read_csv`) is `Option CellVal`:
  `none` is a missing value (NaN; pandas maps empty fields and the default
  NA tokens such as "N/A", "NA", "NaN" to NaN), `some (.num q)` a numeric
  value, `some (.str v)` a non-numeric, non-NA string.
* Timestamps (`uploaded_at`, set by `auto_now_add`) are naturals.
* Numeric values are rationals; Python float arithmetic only ever reaches
  the claims through counts, so no claim depends on rounding.
* The Django ORM table backing `Dataset` is a `Store`: the list of live
  rows in insertion order, the set of raw file payloads currently on disk
  (keyed by dataset id), and the next auto-assigned primary key.
* Querysets ordered by a single key (`order_by('-uploaded_at')`,
  `earliest`, `latest`) are modelled as stable selections: rows with equal
  keys keep insertion order, the deterministic reading of the unspecified
  database tie order.
-/

namespace ChemVis

/-- Value held by a present (non-NaN) cell of the parsed table. -/
inductive CellVal where
  | num (q : ℚ)
  | str (v : String)
deriving DecidableEq, Repr

/-- A cell of the parsed table; `none` is pandas NaN (missing). -/
abbrev Cell := Option CellVal

/-- A data row of the parsed table: column name to cell, in column order. -/
abbrev Row := List (String × Cell)

/-- A parsed table (the `pandas.DataFrame` produced by `pd.read_csv`). -/
structure Table where
  cols : List String
  rows : List Row
deriving DecidableEq, Repr

/-- Cell of a row under a column name; absent names read as missing. -/
def cellOf (r : Row) (c : String) : Cell :=
  match r.find? (fun p => p.1 == c) with
  | some p => p.2
  | none => none

/-- The column `c` of the table, as the list of its cells in row order. -/
def colCells (t : Table) (c : String) : List Cell :=
  t.rows.map (fun r => cellOf r c)

/-- Required columns for CSV validation (`views.py` lines 20-26). -/
def REQUIRED_COLUMNS : List String :=
  ["Equipment Name", "Type", "Flowrate", "Pressure", "Temperature"]

/-- Maximum number of datasets to keep (`views.py` line 29). -/
def MAX_DATASETS : Nat := 5

/-- The subset test `REQUIRED_COLUMNS.issubset(set(dataframe.columns))`
(`views.py` line 66): exact-string, case-sensitive, order-independent. -/
def hasRequiredColumns (t : Table) : Bool :=
  REQUIRED_COLUMNS.all (fun c => t.cols.contains c)

/-- The three numeric columns averaged by `_calculate_summary`
(`views.py` line 119). -/
def numericColumns : List String := ["Flowrate", "Pressure", "Temperature"]

/-- Non-numeric string cells of a column. -/
def strCells (cells : List Cell) : List String :=
  cells.filterMap (fun c =>
    match c with
    | some (.str v) => some v
    | _ => none)

/-- Numeric cells of a column. -/
def numCells (cells : List Cell) : List ℚ :=
  cells.filterMap (fun c =>
    match c with
    | some (.num q) => some q
    | _ => none)

/-- Column mean, as computed by `dataframe[numeric_columns].mean()`
(`views.py` line 120) under pandas >= 2.0: missing cells are skipped
(`skipna`); an all-missing or empty column has mean NaN (`none`); a column
holding any non-numeric string makes the object-dtype reduction raise
`TypeError` ("Could not convert ... to numeric", built from the summed
string content — no row index), which the view's generic handler surfaces
as an HTTP 500 processing error. -/
def colMean (cells : List Cell) : Except String (Option ℚ) :=
  if (strCells cells).isEmpty then
    if (numCells cells).isEmpty then .ok none
    else .ok (some ((numCells cells).sum / ((numCells cells).length : ℚ)))
  else
    .error ("Could not convert string " ++
      (strCells cells).foldl (fun a b => a ++ b) "" ++ " to numeric")

/-- Means of the listed columns, first failing column aborting, in the
column order of `numeric_columns`. -/
def meansFor (t : Table) : List String → Except String (List (String × Option ℚ))
  | [] => .ok []
  | c :: cs =>
    match colMean (colCells t c) with
    | .error e => .error e
    | .ok m =>
      match meansFor t cs with
      | .error e => .error e
      | .ok rest => .ok ((c, m) :: rest)

/-- Present (non-missing) values of a column. -/
def presentVals (cells : List Cell) : List CellVal :=
  cells.filterMap id

/-- The dict `dataframe['Type'].value_counts().to_dict()` (`views.py`
line 123): occurrence counts of each distinct present value; missing
cells are dropped (`value_counts` default `dropna=True`). `value_counts`
sorts by count, but `to_dict` makes the result a mapping, so the order
of this association list is immaterial; first-seen order is used. -/
def typeDist (cells : List Cell) : List (CellVal × Nat) :=
  (presentVals cells).dedup.map (fun v => (v, (presentVals cells).count v))

/-- The summary dict built by `_calculate_summary` (`views.py` 106-129). -/
structure Summary where
  total_count : Nat
  averages : List (String × Option ℚ)
  type_distribution : List (CellVal × Nat)
deriving DecidableEq, Repr

/-- Sum of the `type_distribution` counts of a summary. -/
def distSum (sm : Summary) : Nat :=
  (sm.type_distribution.map Prod.snd).sum

/-- Model of `UploadCSV._calculate_summary` (`views.py` 106-129): row count, the
three column means (which may raise, aborting with no summary), and the
`Type` value distribution. -/
def calcSummary (t : Table) : Except String Summary :=
  match meansFor t numericColumns with
  | .error e => .error e
  | .ok avgs =>
    .ok { total_count := t.rows.length
          averages := avgs
          type_distribution := typeDist (colCells t "Type") }

/-- A stored `Dataset` row (`models.py` 11-53). -/
structure Dataset where
  id : Nat
  uploadedAt : Nat
  summary : Option Summary
  originalFilename : String
deriving DecidableEq, Repr

/-- The persistence state: live `Dataset` rows in insertion order, ids of
raw file payloads present on disk, and the next auto primary key. -/
structure Store where
  datasets : List Dataset
  files : List Nat
  nextId : Nat
deriving DecidableEq, Repr

/-- Model of `Dataset.objects.count()`. -/
def Store.count (s : Store) : Nat := s.datasets.length

/-- A store with no datasets, no files, at the first primary key. -/
def emptyStore : Store := ⟨[], [], 0⟩

/-- Model of `Dataset.objects.earliest('uploaded_at')` over a nonempty row list:
the row of minimum `uploaded_at`; the first-inserted (lowest-id) row among
equals, the single ordering key leaving database tie order to insertion
order. -/
def earliestD (d : Dataset) : List Dataset → Dataset
  | [] => d
  | e :: es => if e.uploadedAt < d.uploadedAt then earliestD e es else earliestD d es

/-- Deletion of one dataset row and its raw file
(`oldest.file.delete(save=False); oldest.delete()`, `views.py` 137-140). -/
def deleteDataset (s : Store) (target : Dataset) : Store :=
  { s with
    datasets := s.datasets.filter (fun x => x.id != target.id)
    files := s.files.filter (fun i => i != target.id) }

/-- One iteration of the cleanup loop body: delete the earliest dataset
(no-op on an empty store, where the loop guard is already false). -/
def cleanupStep (s : Store) : Store :=
  match s.datasets with
  | [] => s
  | d :: ds => deleteDataset s (earliestD d ds)

/-- The cleanup while loop, with an explicit iteration bound: each
iteration whose guard `count > maxCount` holds deletes the earliest
dataset. Since every iteration strictly shrinks the store, `s.count`
iterations always suffice; `enforceRetention` instantiates the bound that
way, and the while-loop unfolding law is proved as `enforceRetention_eq`. -/
def enforceLoop (maxCount : Nat) : Nat → Store → Store
  | 0, s => s
  | fuel + 1, s =>
    if maxCount < s.count then enforceLoop maxCount fuel (cleanupStep s)
    else s

/-- Model of `UploadCSV._cleanup_old_datasets` (`views.py` 131-140), with the bound
passed explicitly: while the store holds more than `maxCount` datasets,
delete the earliest one and its file. In the source the bound is the
module constant `MAX_DATASETS`. -/
def enforceRetention (maxCount : Nat) (s : Store) : Store :=
  enforceLoop maxCount s.count s

/-- Outcome of `pd.read_csv` on the uploaded bytes (`views.py` 63,
90-99): the empty-input error, a parser error, or a parsed table. -/
inductive ParseOutcome where
  | emptyData
  | parseFail (msg : String)
  | table (t : Table)
deriving DecidableEq, Repr

/-- An uploaded file: its name and what `pd.read_csv` yields on it. -/
structure UploadedFile where
  name : String
  parsed : ParseOutcome
deriving DecidableEq, Repr

/-- The response of `UploadCSV.post`, one constructor per return site
(`views.py` 55-103): 400 no-file, 400 empty CSV, 400 invalid format,
400 missing columns (carrying the required and found column lists),
500 processing error, or 201 created with the new dataset. -/
inductive UploadResult where
  | noFile
  | emptyData
  | parserError (msg : String)
  | schemaError (required found : List String)
  | processingError (msg : String)
  | created (d : Dataset)
deriving DecidableEq, Repr

/-- Model of `UploadCSV.post` (`views.py` 42-104) at timestamp `now`: returns the
HTTP-level result and the store after the request. On success the new
dataset is created with the next id and `now` as `uploaded_at`, its raw
file is written, and `_cleanup_old_datasets` runs before the response. -/
def post (file? : Option UploadedFile) (now : Nat) (s : Store) :
    UploadResult × Store :=
  match file? with
  | none => (.noFile, s)
  | some f =>
    match f.parsed with
    | .emptyData => (.emptyData, s)
    | .parseFail m => (.parserError m, s)
    | .table tbl =>
      if hasRequiredColumns tbl then
        match calcSummary tbl with
        | .error m => (.processingError m, s)
        | .ok sm =>
          let d : Dataset := ⟨s.nextId, now, some sm, f.name⟩
          (.created d,
           enforceRetention MAX_DATASETS
             ⟨s.datasets ++ [d], s.files ++ [d.id], s.nextId + 1⟩)
      else (.schemaError REQUIRED_COLUMNS tbl.cols, s)

/-- Insertion into a list kept in descending `uploadedAt` order; an equal
key does not pass, so earlier-inserted rows stay in front of equal-time
later ones. -/
def insertDesc (d : Dataset) : List Dataset → List Dataset
  | [] => [d]
  | e :: es => if e.uploadedAt < d.uploadedAt then d :: e :: es else e :: insertDesc d es

/-- Model of `HistoryList.get`, `Dataset.objects.all().order_by('-uploaded_at')`
(`views.py` 161): the fully materialized row list, stably sorted by
descending `uploaded_at` (insertion order among equal timestamps). -/
def listAll (s : Store) : List Dataset :=
  s.datasets.foldl (fun acc d => insertDesc d acc) []

/-- The row of maximum `uploaded_at` in a nonempty row list; the
first-inserted row among equals (same tie reading as `earliestD`). -/
def latestOf (d : Dataset) : List Dataset → Dataset
  | [] => d
  | e :: es => if d.uploadedAt < e.uploadedAt then latestOf e es else latestOf d es

/-- Model of `Dataset.objects.latest('uploaded_at')` — `none` models the
`Dataset.DoesNotExist` raise on an empty table. -/
def latestD (s : Store) : Option Dataset :=
  match s.datasets with
  | [] => none
  | d :: ds => some (latestOf d ds)

/-- Response of `LatestSummary.get` (`views.py` 216-240): 404 when the
store is empty, else the latest dataset's summary fields. -/
inductive LatestResult where
  | notFound
  | okSummary (summary : Option Summary) (uploadedAt : Nat) (originalFilename : String)
deriving DecidableEq, Repr

/-- Model of `LatestSummary.get` (`views.py` 216-240). -/
def latestSummaryGet (s : Store) : LatestResult :=
  match latestD s with
  | none => .notFound
  | some d => .okSummary d.summary d.uploadedAt d.originalFilename

/-- Response of `DatasetDownload.get` (`views.py` 173-206): 404 unknown
id, 404 record without payload, or the payload as an attachment. -/
inductive DownloadResult where
  | notFound
  | fileMissing
  | fileOf (id : Nat) (filename : String)
deriving DecidableEq, Repr

/-- Model of `DatasetDownload.get` (`views.py` 173-206): fetch by primary key,
404 if absent; serve the raw payload named after `original_filename`
(default `dataset.csv`). -/
def download (s : Store) (pk : Nat) : DownloadResult :=
  match s.datasets.find? (fun d => d.id == pk) with
  | none => .notFound
  | some d =>
    if s.files.contains d.id then
      .fileOf d.id (if d.originalFilename == "" then "dataset.csv" else d.originalFilename)
    else .fileMissing

/-- A sequence of upload requests, folded through `post`; the resulting
store after all of them. -/
def ingestSeq (inputs : List (Option UploadedFile × Nat)) (s : Store) : Store :=
  inputs.foldl (fun st i => (post i.1 i.2 st).2) s

/-- The ordering the specification asserts for `listAll`: strictly later
time first, equal times broken by descending id. -/
abbrev specListOrder (a b : Dataset) : Prop :=
  b.uploadedAt < a.uploadedAt ∨ (b.uploadedAt = a.uploadedAt ∧ b.id < a.id)

/-- The selection the specification asserts for `latest`: maximum
`uploadedAt`, equal times broken by highest id. -/
abbrev specLatest (d : Dataset) (s : Store) : Prop :=
  ∀ e ∈ s.datasets, e.uploadedAt < d.uploadedAt ∨
    (e.uploadedAt = d.uploadedAt ∧ e.id ≤ d.id)

/-- A row of the worked example of the specification (section 8). -/
def wRowPump : Row :=
  [("Equipment Name", some (.str "P-101")), ("Type", some (.str "Pump")),
   ("Flowrate", some (.num 10)), ("Pressure", some (.num 5)),
   ("Temperature", some (.num 20))]

/-- The second row of the worked example of the specification. -/
def wRowValve : Row :=
  [("Equipment Name", some (.str "V-201")), ("Type", some (.str "Valve")),
   ("Flowrate", some (.num 20)), ("Pressure", some (.num 15)),
   ("Temperature", some (.num 30))]

/-- A well-formed table holding the two example rows. -/
def wTblGood : Table := ⟨REQUIRED_COLUMNS, [wRowPump, wRowValve]⟩

/-- An upload of the well-formed example table. -/
def wFileGood : UploadedFile := ⟨"equipment.csv", .table wTblGood⟩

/-- A row whose `Type` field was left empty, hence parsed as NaN. -/
def c2row : Row :=
  [("Equipment Name", some (.str "E1")), ("Type", none),
   ("Flowrate", some (.num 1)), ("Pressure", some (.num 2)),
   ("Temperature", some (.num 3))]

/-- A table with every required column whose single row misses `Type`. -/
def c2tbl : Table := ⟨REQUIRED_COLUMNS, [c2row]⟩

/-- A row with a non-numeric string in the numeric column `Flowrate`. -/
def c4row : Row :=
  [("Equipment Name", some (.str "E")), ("Type", some (.str "Pump")),
   ("Flowrate", some (.str "abc")), ("Pressure", some (.num 2)),
   ("Temperature", some (.num 3))]

/-- A table with every required column and a non-numeric `Flowrate` cell. -/
def c4tbl : Table := ⟨REQUIRED_COLUMNS, [c4row]⟩

/-- An upload of the table with the non-numeric `Flowrate` cell. -/
def c4file : UploadedFile := ⟨"bad.csv", .table c4tbl⟩

/-- A table missing the required column `Type`. -/
def c3tbl : Table :=
  ⟨["Equipment Name", "Flowrate", "Pressure", "Temperature"], []⟩

/-- An upload of the table missing `Type`. -/
def c3file : UploadedFile := ⟨"notype.csv", .table c3tbl⟩

/-- A header-only table: every required column, zero data rows. -/
def c10tbl : Table := ⟨REQUIRED_COLUMNS, []⟩

/-- An upload of the header-only table. -/
def c10file : UploadedFile := ⟨"header.csv", .table c10tbl⟩

/-- A store with two datasets sharing an upload time (ids 0 and 1). -/
def c6store : Store :=
  ⟨[⟨0, 10, none, "first.csv"⟩, ⟨1, 10, none, "second.csv"⟩], [0, 1], 2⟩

/-- A store with two datasets sharing the maximal upload time. -/
def c7store : Store :=
  ⟨[⟨0, 8, none, "older-id.csv"⟩, ⟨1, 8, none, "newer-id.csv"⟩], [0, 1], 2⟩

/-- A one-dataset store used to instantiate the latest-dataset theorem. -/
def c7wstore : Store := ⟨[⟨0, 3, none, "only.csv"⟩], [0], 1⟩

/-- A two-dataset store used to instantiate the retention idempotence
theorem. -/
def c8store : Store :=
  ⟨[⟨0, 1, none, "a.csv"⟩, ⟨1, 2, none, "b.csv"⟩], [0, 1], 2⟩

/-- The dataset carried by a 201 response; out-of-domain fallback for the
other responses. -/
def createdOf (r : UploadResult) : Dataset :=
  match r with
  | .created d => d
  | _ => ⟨0, 0, none, ""⟩

/-- Store after the first of seven concrete ingestions. -/
def w5s1 : Store := (post (some wFileGood) 1 emptyStore).2

/-- Dataset created by the first concrete ingestion. -/
def w5d1 : Dataset := createdOf (post (some wFileGood) 1 emptyStore).1

/-- Store after the second concrete ingestion. -/
def w5s2 : Store := (post (some wFileGood) 2 w5s1).2

/-- Dataset created by the second concrete ingestion. -/
def w5d2 : Dataset := createdOf (post (some wFileGood) 2 w5s1).1

/-- Store after the third concrete ingestion. -/
def w5s3 : Store := (post (some wFileGood) 3 w5s2).2

/-- Dataset created by the third concrete ingestion. -/
def w5d3 : Dataset := createdOf (post (some wFileGood) 3 w5s2).1

/-- Store after the fourth concrete ingestion. -/
def w5s4 : Store := (post (some wFileGood) 4 w5s3).2

/-- Dataset created by the fourth concrete ingestion. -/
def w5d4 : Dataset := createdOf (post (some wFileGood) 4 w5s3).1

/-- Store after the fifth concrete ingestion. -/
def w5s5 : Store := (post (some wFileGood) 5 w5s4).2

/-- Dataset created by the fifth concrete ingestion. -/
def w5d5 : Dataset := createdOf (post (some wFileGood) 5 w5s4).1

/-- Store after the sixth concrete ingestion. -/
def w5s6 : Store := (post (some wFileGood) 6 w5s5).2

/-- Dataset created by the sixth concrete ingestion. -/
def w5d6 : Dataset := createdOf (post (some wFileGood) 6 w5s5).1

/-- Store after the seventh concrete ingestion. -/
def w5s7 : Store := (post (some wFileGood) 7 w5s6).2

/-- Dataset created by the seventh concrete ingestion. -/
def w5d7 : Dataset := createdOf (post (some wFileGood) 7 w5s6).1

theorem earliestD_mem (d : Dataset) (ds : List Dataset) :
    earliestD d ds ∈ d :: ds := by
  induction ds generalizing d with
  | nil => simp [earliestD]
  | cons e es ih =>
    simp only [earliestD]
    split
    · rcases List.mem_cons.mp (ih e) with h' | h'
      · rw [h']; simp
      · exact List.mem_cons_of_mem _ (List.mem_cons_of_mem _ h')
    · rcases List.mem_cons.mp (ih d) with h' | h'
      · rw [h']; simp
      · exact List.mem_cons_of_mem _ (List.mem_cons_of_mem _ h')

theorem length_filter_lt_of_mem {α : Type} {p : α → Bool} {l : List α} {x : α}
    (hx : x ∈ l) (hp : p x = false) :
    (l.filter p).length < l.length := by
  induction l with
  | nil => cases hx
  | cons a as ih =>
    have hle := List.length_filter_le p as
    rcases List.mem_cons.mp hx with rfl | hmem
    · simp [List.filter_cons, hp]
      omega
    · have hlt := ih hmem
      by_cases hpa : p a
      · simp [List.filter_cons, hpa]
        omega
      · simp only [Bool.not_eq_true] at hpa
        simp [List.filter_cons, hpa]
        omega

theorem cleanupStep_count_lt (s : Store) (h : 0 < s.count) :
    (cleanupStep s).count < s.count := by
  rcases s with ⟨ds, fs, n⟩
  cases ds with
  | nil => simp [Store.count] at h
  | cons d es =>
    simp only [cleanupStep, deleteDataset, Store.count]
    exact length_filter_lt_of_mem (earliestD_mem d es) (by simp)

theorem enforceLoop_fuel (m : Nat) :
    ∀ (f1 : Nat) (s : Store), s.count ≤ f1 → ∀ (f2 : Nat), s.count ≤ f2 →
      enforceLoop m f1 s = enforceLoop m f2 s := by
  intro f1
  induction f1 with
  | zero =>
    intro s hs f2 hs2
    cases f2 with
    | zero => rfl
    | succ k =>
      simp only [enforceLoop]
      rw [if_neg (by omega)]
  | succ k ih =>
    intro s hs f2 hs2
    cases f2 with
    | zero =>
      simp only [enforceLoop]
      rw [if_neg (by omega)]
    | succ k2 =>
      simp only [enforceLoop]
      by_cases hg : m < s.count
      · rw [if_pos hg, if_pos hg]
        have hlt := cleanupStep_count_lt s (by omega)
        exact ih _ (by omega) _ (by omega)
      · rw [if_neg hg, if_neg hg]

/-- The while-loop unfolding law of `_cleanup_old_datasets`: test the
guard, delete the earliest dataset and loop again if it holds. -/
theorem enforceRetention_eq (m : Nat) (s : Store) :
    enforceRetention m s =
      if m < s.count then enforceRetention m (cleanupStep s) else s := by
  by_cases hg : m < s.count
  · rw [if_pos hg]
    unfold enforceRetention
    obtain ⟨c, hc⟩ : ∃ c, s.count = c + 1 := ⟨s.count - 1, by omega⟩
    rw [hc]
    simp only [enforceLoop]
    rw [if_pos hg]
    have hlt := cleanupStep_count_lt s (by omega)
    exact enforceLoop_fuel m c _ (by omega) _ le_rfl
  · rw [if_neg hg]
    unfold enforceRetention
    cases hc : s.count with
    | zero => rfl
    | succ c =>
      simp only [enforceLoop]
      rw [if_neg hg]

theorem enforceRetention_of_le {m : Nat} {s : Store} (h : s.count ≤ m) :
    enforceRetention m s = s := by
  rw [enforceRetention_eq, if_neg (by omega)]

theorem enforceRetention_count_le_fuel (m : Nat) :
    ∀ (n : Nat) (s : Store), s.count ≤ n →
      (enforceRetention m s).count ≤ m := by
  intro n
  induction n with
  | zero =>
    intro s hs
    rw [enforceRetention_of_le (by omega)]
    omega
  | succ n ih =>
    intro s hs
    rw [enforceRetention_eq]
    by_cases h : m < s.count
    · rw [if_pos h]
      exact ih _ (by have := cleanupStep_count_lt s (by omega); omega)
    · rw [if_neg h]
      omega

theorem enforceRetention_count_le (m : Nat) (s : Store) :
    (enforceRetention m s).count ≤ m :=
  enforceRetention_count_le_fuel m s.count s le_rfl

/-- C9: an upload request carrying no file payload is answered with the
400 response `No file provided` and leaves the store untouched: no
dataset is created and no retention pass runs. -/
theorem c9_no_file (now : Nat) (s : Store) :
    post none now s = (.noFile, s) := rfl

/-- C8: retention enforcement is idempotent. For every store state,
running `_cleanup_old_datasets` (with bound `maxCount`) twice in a row
with no intervening create yields the same store as running it once, and
when the store already holds at most `maxCount` datasets the run is a
no-op. -/
theorem c8_enforce_idempotent (m : Nat) (s : Store) :
    enforceRetention m (enforceRetention m s) = enforceRetention m s ∧
    (s.count ≤ m → enforceRetention m s = s) :=
  ⟨enforceRetention_of_le (enforceRetention_count_le m s),
   fun h => enforceRetention_of_le h⟩

/-- Witness for C8 at a concrete two-dataset store and the code's bound
of five. -/
theorem c8_witness :
    enforceRetention 5 (enforceRetention 5 c8store) = enforceRetention 5 c8store ∧
    enforceRetention 5 c8store = c8store :=
  ⟨(c8_enforce_idempotent 5 c8store).1,
   (c8_enforce_idempotent 5 c8store).2 (by decide)⟩

theorem post_count_le (f : Option UploadedFile) (now : Nat) (s : Store)
    (h : s.count ≤ MAX_DATASETS) :
    ((post f now s).2).count ≤ MAX_DATASETS := by
  rcases f with _ | fl
  · exact h
  · cases hp : fl.parsed with
    | emptyData => simpa [post, hp] using h
    | parseFail m => simpa [post, hp] using h
    | table tbl =>
      by_cases hreq : hasRequiredColumns tbl = true
      · cases hc : calcSummary tbl with
        | error m => simpa [post, hp, hreq, hc] using h
        | ok sm =>
          simp only [post, hp, hreq, if_true, hc]
          exact enforceRetention_count_le _ _
      · simp only [Bool.not_eq_true] at hreq
        simpa [post, hp, hreq] using h

/-- C1: starting from any store holding at most `MAX_DATASETS` (five)
datasets, after every upload request of any sequence — in particular
after each successful ingestion — the store still holds at most
`MAX_DATASETS` datasets. -/
theorem c1_retention_invariant (inputs : List (Option UploadedFile × Nat))
    (s : Store) (h : s.count ≤ MAX_DATASETS) :
    (ingestSeq inputs s).count ≤ MAX_DATASETS := by
  induction inputs generalizing s with
  | nil => simpa [ingestSeq] using h
  | cons i is ih =>
    have h1 := post_count_le i.1 i.2 s h
    simpa [ingestSeq] using ih _ h1

/-- Witness for C1: one successful concrete ingestion into the empty
store keeps the count within the bound. -/
theorem c1_witness :
    (ingestSeq [(some wFileGood, 1)] emptyStore).count ≤ MAX_DATASETS :=
  c1_retention_invariant [(some wFileGood, 1)] emptyStore (by decide)

/-- C3: for a request whose payload parses to a table, the upload fails
with the missing-columns 400 response if and only if the required set is
not a subset of the parsed columns (exact-string, case-sensitive,
order-independent membership); on that failure the response carries the
required list and the found column list and the store is unchanged. -/
theorem c3_schema_error_iff (f : UploadedFile) (tbl : Table) (now : Nat)
    (s : Store) (hparse : f.parsed = .table tbl) :
    (hasRequiredColumns tbl = true ↔ ∀ c ∈ REQUIRED_COLUMNS, c ∈ tbl.cols) ∧
    ((∃ req fnd, (post (some f) now s).1 = .schemaError req fnd) ↔
      ¬ ∀ c ∈ REQUIRED_COLUMNS, c ∈ tbl.cols) ∧
    ((¬ ∀ c ∈ REQUIRED_COLUMNS, c ∈ tbl.cols) →
      post (some f) now s = (.schemaError REQUIRED_COLUMNS tbl.cols, s)) := by
  have hchar : hasRequiredColumns tbl = true ↔ ∀ c ∈ REQUIRED_COLUMNS, c ∈ tbl.cols := by
    simp [hasRequiredColumns, List.all_eq_true]
  refine ⟨hchar, ?_, ?_⟩
  · by_cases hreq : hasRequiredColumns tbl = true
    · constructor
      · rintro ⟨req, fnd, hres⟩
        exfalso
        cases hc : calcSummary tbl with
        | error m => simp [post, hparse, hreq, hc] at hres
        | ok sm => simp [post, hparse, hreq, hc] at hres
      · intro hnot
        exact absurd (hchar.mp hreq) hnot
    · simp only [Bool.not_eq_true] at hreq
      constructor
      · intro _
        intro hall
        rw [← hchar] at hall
        simp [hall] at hreq
      · intro _
        exact ⟨REQUIRED_COLUMNS, tbl.cols, by simp [post, hparse, hreq]⟩
  · intro hnot
    have hreq : hasRequiredColumns tbl = false := by
      rcases Bool.eq_false_or_eq_true (hasRequiredColumns tbl) with h' | h'
      · exact absurd (hchar.mp h') hnot
      · exact h'
    simp [post, hparse, hreq]

/-- Witness for C3 at a concrete table missing the required column
`Type`: the request fails with the schema 400 carrying both column
lists and the store is unchanged. -/
theorem c3_witness :
    post (some c3file) 4 emptyStore =
      (.schemaError REQUIRED_COLUMNS c3tbl.cols, emptyStore) :=
  (c3_schema_error_iff c3file c3tbl 4 emptyStore rfl).2.2 (by decide)

/-- C10: a table with every required column and zero data rows ingests
without failing: the response is 201 with a dataset whose summary has
`total_count = 0` and an empty `type_distribution`. -/
theorem c10_header_only (f : UploadedFile) (tbl : Table) (now : Nat)
    (s : Store) (hparse : f.parsed = .table tbl)
    (hreq : hasRequiredColumns tbl = true) (hrows : tbl.rows = []) :
    ∃ d, (post (some f) now s).1 = .created d ∧
      ∃ sm, d.summary = some sm ∧ sm.total_count = 0 ∧
        sm.type_distribution = [] := by
  have hcells : ∀ c, colCells tbl c = [] := by
    intro c
    simp [colCells, hrows]
  have hcalc : calcSummary tbl =
      .ok ⟨0, [("Flowrate", none), ("Pressure", none), ("Temperature", none)], []⟩ := by
    simp [calcSummary, meansFor, numericColumns, hcells, colMean, strCells,
      numCells, typeDist, presentVals, hrows]
  refine ⟨⟨s.nextId, now, some ⟨0, [("Flowrate", none), ("Pressure", none),
    ("Temperature", none)], []⟩, f.name⟩, ?_, ?_⟩
  · simp [post, hparse, hreq, hcalc]
  · exact ⟨_, rfl, rfl, rfl⟩

/-- Witness for C10 at a concrete header-only upload. -/
theorem c10_witness :
    ∃ d, (post (some c10file) 6 emptyStore).1 = .created d ∧
      ∃ sm, d.summary = some sm ∧ sm.total_count = 0 ∧
        sm.type_distribution = [] :=
  c10_header_only c10file c10tbl 6 emptyStore rfl (by decide) (by decide)

theorem distSum_typeDist (cells : List Cell) :
    ((typeDist cells).map Prod.snd).sum = (presentVals cells).length := by
  unfold typeDist
  rw [List.map_map]
  exact List.sum_map_count_dedup_eq_length _

theorem presentVals_length (cells : List Cell)
    (h : ∀ c ∈ cells, c ≠ none) :
    (presentVals cells).length = cells.length := by
  induction cells with
  | nil => rfl
  | cons c cs ih =>
    cases c with
    | none => exact absurd rfl (h none (List.mem_cons_self _ _))
    | some v =>
      have hrec := ih (fun x hx => h x (List.mem_cons_of_mem _ hx))
      simp [presentVals, List.filterMap_cons] at hrec ⊢
      exact hrec

theorem colMean_ok (cells : List Cell)
    (h : (strCells cells).isEmpty = true) :
    ∃ m, colMean cells = .ok m := by
  simp only [colMean, h, if_true]
  by_cases hn : (numCells cells).isEmpty
  · simp [hn]
  · simp [hn]

theorem meansFor_ok (t : Table) (cols : List String)
    (h : ∀ c ∈ cols, (strCells (colCells t c)).isEmpty = true) :
    ∃ avgs, meansFor t cols = .ok avgs := by
  induction cols with
  | nil => exact ⟨[], rfl⟩
  | cons c cs ih =>
    obtain ⟨m, hm⟩ := colMean_ok _ (h c (List.mem_cons_self _ _))
    obtain ⟨avgs, havgs⟩ := ih (fun x hx => h x (List.mem_cons_of_mem _ hx))
    exact ⟨(c, m) :: avgs, by simp [meansFor, hm, havgs]⟩

theorem calcSummary_shape (t : Table)
    (h : ∀ c ∈ numericColumns, (strCells (colCells t c)).isEmpty = true) :
    ∃ avgs, calcSummary t =
      .ok ⟨t.rows.length, avgs, typeDist (colCells t "Type")⟩ := by
  obtain ⟨avgs, hm⟩ := meansFor_ok t numericColumns h
  exact ⟨avgs, by simp [calcSummary, hm]⟩

/-- C2 counterexample: a table with every required column whose single
row has an empty (NaN) `Type` cell yields a summary with
`total_count = 1` but `type_distribution` summing to zero, because
`value_counts` drops NaN. -/
theorem c2_counterexample :
    hasRequiredColumns c2tbl = true ∧
    ∃ sm, calcSummary c2tbl = .ok sm ∧
      sm.total_count = c2tbl.rows.length ∧ distSum sm ≠ sm.total_count := by
  obtain ⟨avgs, hok⟩ := calcSummary_shape c2tbl (by decide)
  refine ⟨by decide, ⟨_, hok, rfl, ?_⟩⟩
  show ((typeDist (colCells c2tbl "Type")).map Prod.snd).sum ≠ c2tbl.rows.length
  decide

/-- C2 as amended: for every table with the required columns whose
summary is computed, `total_count` equals the number of data rows, and
when no `Type` cell is missing the `type_distribution` values sum to
`total_count`. -/
theorem c2_total_and_dist_sum (t : Table) (sm : Summary)
    (hreq : hasRequiredColumns t = true)
    (hok : calcSummary t = .ok sm) :
    sm.total_count = t.rows.length ∧
    ((∀ r ∈ t.rows, cellOf r "Type" ≠ none) → distSum sm = sm.total_count) := by
  cases hm : meansFor t numericColumns with
  | error e => simp [calcSummary, hm] at hok
  | ok avgs =>
    simp only [calcSummary, hm, Except.ok.injEq] at hok
    subst hok
    refine ⟨rfl, ?_⟩
    intro hty
    have hnn : ∀ c ∈ colCells t "Type", c ≠ none := by
      intro c hc
      obtain ⟨r, hr, hrc⟩ := List.mem_map.mp hc
      rw [← hrc]
      exact hty r hr
    simp only [distSum]
    rw [distSum_typeDist, presentVals_length _ hnn]
    simp [colCells]

/-- Witness for C2 (amended) at the worked example of the specification:
two rows, distribution `Pump = 1, Valve = 1`, summing to two. -/
theorem c2_witness :
    ∃ sm, calcSummary wTblGood = .ok sm ∧
      sm.total_count = wTblGood.rows.length ∧ distSum sm = sm.total_count := by
  obtain ⟨avgs, hok⟩ := calcSummary_shape wTblGood (by decide)
  have h := c2_total_and_dist_sum wTblGood _ (by decide) hok
  exact ⟨_, hok, h.1, h.2 (by decide)⟩

/-- C4 counterexample: a table with every required column whose
`Flowrate` cell holds the non-numeric string `abc` makes ingestion fail,
but with the generic 500 processing error raised by the pandas numeric
reduction — a bare message naming the non-convertible string content,
with no offending row index and no structured `DataError` — not the
row-and-column error the claim describes. No dataset is stored. -/
theorem c4_counterexample :
    post (some c4file) 0 emptyStore =
      (.processingError "Could not convert string abc to numeric", emptyStore) := by
  decide

theorem colMean_error_of_str (cells : List Cell) (v : String)
    (hv : some (.str v) ∈ cells) :
    ∃ e, colMean cells = .error e := by
  have hmem : v ∈ strCells cells := by
    rw [strCells, List.mem_filterMap]
    exact ⟨some (.str v), hv, rfl⟩
  have hne : (strCells cells).isEmpty = false := by
    cases hsc : strCells cells with
    | nil => rw [hsc] at hmem; cases hmem
    | cons a as => simp [List.isEmpty]
  exact ⟨"Could not convert string " ++
    (strCells cells).foldl (fun a b => a ++ b) "" ++ " to numeric",
    by simp [colMean, hne]⟩

theorem meansFor_error (t : Table) (cols : List String) (c : String)
    (hc : c ∈ cols) (e : String)
    (he : colMean (colCells t c) = .error e) :
    ∃ msg, meansFor t cols = .error msg := by
  induction cols with
  | nil => cases hc
  | cons a as ih =>
    rcases List.mem_cons.mp hc with rfl | hmem
    · exact ⟨e, by simp [meansFor, he]⟩
    · cases hca : colMean (colCells t a) with
      | error e2 => exact ⟨e2, by simp [meansFor, hca]⟩
      | ok m =>
        obtain ⟨msg, hmsg⟩ := ih hmem
        exact ⟨msg, by simp [meansFor, hca, hmsg]⟩

/-- C4 as amended: when a required numeric column of a table with the
required columns holds a non-numeric string cell, ingestion fails — the
numeric reduction raises and the view answers with the generic 500
processing error — no partial averages are returned, the store is
unchanged and no dataset is created. The error does not carry the
offending row index. (A cell written `N/A` never reaches this path at
all: `read_csv` parses it as missing and the mean silently skips it.) -/
theorem c4_nonnumeric_processing_error (f : UploadedFile) (tbl : Table)
    (now : Nat) (s : Store) (hparse : f.parsed = .table tbl)
    (hreq : hasRequiredColumns tbl = true)
    (c : String) (hc : c ∈ numericColumns)
    (r : Row) (hr : r ∈ tbl.rows) (v : String)
    (hv : cellOf r c = some (.str v)) :
    ∃ msg, post (some f) now s = (.processingError msg, s) := by
  have hcell : some (CellVal.str v) ∈ colCells tbl c := by
    rw [← hv]
    exact List.mem_map_of_mem _ hr
  obtain ⟨e, he⟩ := colMean_error_of_str _ v hcell
  obtain ⟨msg, hmsg⟩ := meansFor_error tbl numericColumns c hc e he
  have hcalc : calcSummary tbl = .error msg := by
    simp [calcSummary, hmsg]
  exact ⟨msg, by simp [post, hparse, hreq, hcalc]⟩

/-- Witness for C4 (amended) at the concrete bad table. -/
theorem c4_witness :
    ∃ msg, post (some c4file) 2 emptyStore = (.processingError msg, emptyStore) :=
  c4_nonnumeric_processing_error c4file c4tbl 2 emptyStore rfl (by decide)
    "Flowrate" (by decide) c4row (by decide) "abc" (by decide)

/-- C6 counterexample: on a store holding two datasets with equal
`uploaded_at`, the history listing returns them in insertion order — id 0
before id 1 — so equal timestamps are not broken by descending id; the
single-key `order_by('-uploaded_at')` of the source specifies no id
tie-break at all. -/
theorem c6_counterexample :
    listAll c6store =
      [⟨0, 10, none, "first.csv"⟩, ⟨1, 10, none, "second.csv"⟩] ∧
    ¬ specListOrder (⟨0, 10, none, "first.csv"⟩ : Dataset)
        ⟨1, 10, none, "second.csv"⟩ := by
  constructor
  · decide
  · decide

theorem insertDesc_perm (d : Dataset) (l : List Dataset) :
    List.Perm (insertDesc d l) (d :: l) := by
  induction l with
  | nil => exact List.Perm.refl _
  | cons e es ih =>
    simp only [insertDesc]
    split
    · exact List.Perm.refl _
    · exact (List.Perm.cons e ih).trans (List.Perm.swap d e es)

theorem foldl_insertDesc_perm (l acc : List Dataset) :
    List.Perm (l.foldl (fun a d => insertDesc d a) acc) (l ++ acc) := by
  induction l generalizing acc with
  | nil =>
    simp only [List.foldl_nil, List.nil_append]
    exact List.Perm.refl _
  | cons d ds ih =>
    simp only [List.foldl_cons, List.cons_append]
    have h1 := ih (insertDesc d acc)
    have h2 : List.Perm (ds ++ insertDesc d acc) (ds ++ (d :: acc)) :=
      List.Perm.append_left ds (insertDesc_perm d acc)
    have h3 : List.Perm (ds ++ (d :: acc)) (d :: (ds ++ acc)) :=
      List.perm_middle
    exact (h1.trans h2).trans h3

theorem insertDesc_head? (d : Dataset) (l : List Dataset) :
    (insertDesc d l).head? = some d ∨ (insertDesc d l).head? = l.head? := by
  cases l with
  | nil => left; rfl
  | cons e es =>
    simp only [insertDesc]
    split
    · left; rfl
    · right; rfl

theorem chain'_insertDesc (d : Dataset) (l : List Dataset)
    (h : List.Chain' (fun a b => b.uploadedAt ≤ a.uploadedAt) l) :
    List.Chain' (fun a b => b.uploadedAt ≤ a.uploadedAt) (insertDesc d l) := by
  induction l with
  | nil => simp [insertDesc]
  | cons e es ih =>
    rw [List.chain'_cons'] at h
    simp only [insertDesc]
    split
    · rw [List.chain'_cons']
      refine ⟨?_, ?_⟩
      · intro y hy
        simp only [List.head?_cons, Option.mem_def, Option.some.injEq] at hy
        subst hy
        exact le_of_lt ‹e.uploadedAt < d.uploadedAt›
      · rw [List.chain'_cons']
        exact h
    · rw [List.chain'_cons']
      refine ⟨?_, ih h.2⟩
      intro y hy
      rcases insertDesc_head? d es with hh | hh
      · rw [hh] at hy
        simp only [Option.mem_def, Option.some.injEq] at hy
        subst hy
        exact Nat.not_lt.mp ‹¬ e.uploadedAt < d.uploadedAt›
      · rw [hh] at hy
        exact h.1 y hy

theorem chain'_foldl_insertDesc (l acc : List Dataset)
    (hacc : List.Chain' (fun a b => b.uploadedAt ≤ a.uploadedAt) acc) :
    List.Chain' (fun a b => b.uploadedAt ≤ a.uploadedAt)
      (l.foldl (fun a d => insertDesc d a) acc) := by
  induction l generalizing acc with
  | nil => exact hacc
  | cons d ds ih => exact ih _ (chain'_insertDesc d acc hacc)

/-- C6 as amended: the history listing is a finite, fully materialized
sequence (a list) holding exactly the stored datasets, ordered by
non-increasing `uploaded_at`; equal timestamps keep store insertion
order (ascending id for store-created records) rather than the
descending-id tie-break the specification asserts. -/
theorem c6_listAll_sorted_perm (s : Store) :
    List.Perm (listAll s) s.datasets ∧
    List.Chain' (fun a b => b.uploadedAt ≤ a.uploadedAt) (listAll s) := by
  constructor
  · have h := foldl_insertDesc_perm s.datasets []
    simpa [listAll] using h
  · exact chain'_foldl_insertDesc s.datasets [] (by simp)

theorem latestOf_mem (d : Dataset) (ds : List Dataset) :
    latestOf d ds ∈ d :: ds := by
  induction ds generalizing d with
  | nil => simp [latestOf]
  | cons e es ih =>
    simp only [latestOf]
    split
    · rcases List.mem_cons.mp (ih e) with h' | h'
      · rw [h']; simp
      · exact List.mem_cons_of_mem _ (List.mem_cons_of_mem _ h')
    · rcases List.mem_cons.mp (ih d) with h' | h'
      · rw [h']; simp
      · exact List.mem_cons_of_mem _ (List.mem_cons_of_mem _ h')

theorem latestOf_ge (d : Dataset) (ds : List Dataset) :
    ∀ e ∈ d :: ds, e.uploadedAt ≤ (latestOf d ds).uploadedAt := by
  induction ds generalizing d with
  | nil =>
    intro e he
    simp only [List.mem_singleton] at he
    subst he
    exact le_rfl
  | cons f fs ih =>
    intro e he
    simp only [latestOf]
    by_cases hdf : d.uploadedAt < f.uploadedAt
    · rw [if_pos hdf]
      rcases List.mem_cons.mp he with rfl | he2
      · exact le_trans (le_of_lt hdf) (ih f f (List.mem_cons_self _ _))
      · exact ih f e he2
    · rw [if_neg hdf]
      rcases List.mem_cons.mp he with rfl | he2
      · exact ih e e (List.mem_cons_self _ _)
      · rcases List.mem_cons.mp he2 with rfl | he3
        · exact le_trans (Nat.not_lt.mp hdf) (ih d d (List.mem_cons_self _ _))
        · exact ih d e (List.mem_cons_of_mem _ he3)

theorem post_created_inv (f : UploadedFile) (now : Nat) (s : Store)
    (d : Dataset) (h : (post (some f) now s).1 = .created d) :
    d.id = s.nextId ∧ d.uploadedAt = now ∧ d.originalFilename = f.name ∧
    (post (some f) now s).2 =
      enforceRetention MAX_DATASETS
        ⟨s.datasets ++ [d], s.files ++ [d.id], s.nextId + 1⟩ := by
  cases hp : f.parsed with
  | emptyData => simp [post, hp] at h
  | parseFail m => simp [post, hp] at h
  | table tbl =>
    by_cases hreq : hasRequiredColumns tbl = true
    · cases hc : calcSummary tbl with
      | error m => simp [post, hp, hreq, hc] at h
      | ok sm =>
        simp only [post, hp, hreq, if_true, hc] at h ⊢
        have hd : (⟨s.nextId, now, some sm, f.name⟩ : Dataset) = d := by
          simpa using h
        subst hd
        exact ⟨rfl, rfl, rfl, rfl⟩
    · simp only [Bool.not_eq_true] at hreq
      simp [post, hp, hreq] at h

/-- C7 counterexample: on a store holding two datasets that share the
maximal `uploaded_at`, the latest-dataset lookup returns the
first-inserted row (id 0), not the highest-id row the specification's
tie-break asserts; `latest('uploaded_at')` orders by the single timestamp
key and specifies no id tie-break. -/
theorem c7_counterexample :
    latestD c7store = some ⟨0, 8, none, "older-id.csv"⟩ ∧
    ¬ specLatest ⟨0, 8, none, "older-id.csv"⟩ c7store := by
  constructor
  · decide
  · decide

/-- C7 as amended: the latest-summary endpoint answers 404 exactly when
the store is empty; on a non-empty store it returns a stored dataset of
maximal `uploadedAt` (on equal timestamps the first-inserted one, not the
highest id); and one successful ingestion into an empty store makes that
dataset the latest one, with its summary served. -/
theorem c7_latest_spec (s : Store) :
    (latestSummaryGet s = .notFound ↔ s.datasets = []) ∧
    (∀ d, latestD s = some d → d ∈ s.datasets ∧
      ∀ e ∈ s.datasets, e.uploadedAt ≤ d.uploadedAt) ∧
    (∀ (f : UploadedFile) (now : Nat) (d : Dataset),
      s.datasets = [] → (post (some f) now s).1 = .created d →
      (post (some f) now s).2.datasets = [d] ∧
      latestD (post (some f) now s).2 = some d ∧
      latestSummaryGet (post (some f) now s).2 =
        .okSummary d.summary d.uploadedAt d.originalFilename) := by
  refine ⟨?_, ?_, ?_⟩
  · cases hds : s.datasets with
    | nil => simp [latestSummaryGet, latestD, hds]
    | cons a as => simp [latestSummaryGet, latestD, hds]
  · intro d hd
    cases hds : s.datasets with
    | nil => simp [latestD, hds] at hd
    | cons a as =>
      simp only [latestD, hds, Option.some.injEq] at hd
      subst hd
      constructor
      · exact latestOf_mem a as
      · intro e he
        exact latestOf_ge a as e he
  · intro f now d hds hcr
    obtain ⟨hid, hup, hname, hsnd⟩ := post_created_inv f now s d hcr
    have hstore : (post (some f) now s).2 =
        ⟨[d], s.files ++ [d.id], s.nextId + 1⟩ := by
      rw [hsnd, hds]
      rw [enforceRetention_of_le (by simp [Store.count, MAX_DATASETS])]
      simp
    refine ⟨by rw [hstore], by rw [hstore]; rfl, by rw [hstore]; rfl⟩

/-- Witness for C7 at concrete stores: the empty store answers 404; on a
one-dataset store every stored dataset's time is bounded by the returned
one's; and a concrete ingestion into the empty store becomes the latest
dataset. -/
theorem c7_witness :
    latestSummaryGet emptyStore = .notFound ∧
    (∀ e ∈ c7wstore.datasets,
      e.uploadedAt ≤ (⟨0, 3, none, "only.csv"⟩ : Dataset).uploadedAt) ∧
    latestD (post (some wFileGood) 9 emptyStore).2 =
      some (createdOf (post (some wFileGood) 9 emptyStore).1) := by
  refine ⟨(c7_latest_spec emptyStore).1.mpr rfl, ?_, ?_⟩
  · exact ((c7_latest_spec c7wstore).2.1 ⟨0, 3, none, "only.csv"⟩ rfl).2
  · exact ((c7_latest_spec emptyStore).2.2 wFileGood 9 _ rfl rfl).2.1

theorem earliestD_eq_self (d : Dataset) (ds : List Dataset)
    (h : ∀ e ∈ ds, ¬ e.uploadedAt < d.uploadedAt) : earliestD d ds = d := by
  induction ds generalizing d with
  | nil => rfl
  | cons e es ih =>
    simp only [earliestD]
    rw [if_neg (h e (List.mem_cons_self _ _))]
    exact ih d (fun x hx => h x (List.mem_cons_of_mem _ hx))

theorem insertDesc_front (d e : Dataset) (es : List Dataset)
    (h : e.uploadedAt < d.uploadedAt) :
    insertDesc d (e :: es) = d :: e :: es := by
  simp [insertDesc, h]

theorem enforce_no_evict (ds : List Dataset) (files : List Nat) (n : Nat)
    (hlen : ds.length ≤ 5) :
    enforceRetention MAX_DATASETS ⟨ds, files, n⟩ = ⟨ds, files, n⟩ :=
  enforceRetention_of_le (by simp only [Store.count, MAX_DATASETS]; omega)

theorem enforce_evict_one (d1 : Dataset) (rest : List Dataset)
    (files : List Nat) (n : Nat) (hlen : rest.length = 5)
    (hold : ∀ e ∈ rest, ¬ e.uploadedAt < d1.uploadedAt)
    (hid : ∀ e ∈ rest, e.id ≠ d1.id) :
    enforceRetention MAX_DATASETS ⟨d1 :: rest, files, n⟩ =
      ⟨rest, files.filter (fun i => i != d1.id), n⟩ := by
  have hfd : (d1 :: rest).filter (fun x => x.id != d1.id) = rest := by
    rw [List.filter_cons]
    rw [if_neg (by simp)]
    exact List.filter_eq_self.mpr (fun a ha => by simpa using hid a ha)
  have hstep : cleanupStep ⟨d1 :: rest, files, n⟩ =
      ⟨rest, files.filter (fun i => i != d1.id), n⟩ := by
    show deleteDataset ⟨d1 :: rest, files, n⟩ (earliestD d1 rest) = _
    rw [earliestD_eq_self d1 rest hold]
    show (⟨(d1 :: rest).filter (fun x => x.id != d1.id),
      files.filter (fun i => i != d1.id), n⟩ : Store) = _
    rw [hfd]
  rw [enforceRetention_eq]
  rw [if_pos (by simp only [Store.count, List.length_cons, hlen, MAX_DATASETS]; omega)]
  rw [hstep]
  exact enforceRetention_of_le (by simp only [Store.count, MAX_DATASETS]; omega)

theorem post_step_append (f : UploadedFile) (now : Nat) (ds : List Dataset)
    (files : List Nat) (n : Nat) (d : Dataset)
    (h : (post (some f) now ⟨ds, files, n⟩).1 = .created d)
    (hlen : ds.length ≤ 4) :
    d.id = n ∧ d.uploadedAt = now ∧
    (post (some f) now ⟨ds, files, n⟩).2 = ⟨ds ++ [d], files ++ [d.id], n + 1⟩ := by
  obtain ⟨hid, hup, _, hsnd⟩ := post_created_inv f now ⟨ds, files, n⟩ d h
  refine ⟨hid, hup, ?_⟩
  rw [hsnd]
  apply enforce_no_evict
  simp only [List.length_append, List.length_cons, List.length_nil]
  omega

theorem post_step_evict (f : UploadedFile) (now : Nat) (d1 : Dataset)
    (rest : List Dataset) (files : List Nat) (n : Nat) (d : Dataset)
    (h : (post (some f) now ⟨d1 :: rest, files, n⟩).1 = .created d)
    (hlen : rest.length = 4)
    (hold : ∀ e ∈ rest, ¬ e.uploadedAt < d1.uploadedAt)
    (hnew : ¬ now < d1.uploadedAt)
    (hid : ∀ e ∈ rest, e.id ≠ d1.id) (hidn : n ≠ d1.id) :
    d.id = n ∧ d.uploadedAt = now ∧
    (post (some f) now ⟨d1 :: rest, files, n⟩).2 =
      ⟨rest ++ [d], (files ++ [d.id]).filter (fun i => i != d1.id), n + 1⟩ := by
  obtain ⟨hid', hup, _, hsnd⟩ := post_created_inv f now ⟨d1 :: rest, files, n⟩ d h
  refine ⟨hid', hup, ?_⟩
  rw [hsnd]
  have hshape : (d1 :: rest) ++ [d] = d1 :: (rest ++ [d]) := rfl
  rw [hshape]
  rw [enforce_evict_one d1 (rest ++ [d]) (files ++ [d.id]) (n + 1)
    (by simp only [List.length_append, List.length_cons, List.length_nil, hlen])
    ?hold2 ?hid2]
  case hold2 =>
    intro e he
    rcases List.mem_append.mp he with he1 | he1
    · exact hold e he1
    · simp only [List.mem_singleton] at he1
      subst he1
      rw [hup]
      exact hnew
  case hid2 =>
    intro e he
    rcases List.mem_append.mp he with he1 | he1
    · exact hid e he1
    · simp only [List.mem_singleton] at he1
      subst he1
      rw [hid']
      exact hidn

/-- C5: seven successful ingestions into an initially empty store at
strictly increasing upload times leave exactly the datasets of the third
to seventh ingestion, listed most recent first; each of the two retention
passes that ran deleted the single oldest dataset (the sixth ingestion
evicted only the first dataset, the seventh only the second); the first
two datasets are gone, their ids resolve to 404 on download, and their
raw file payloads are no longer in the file store. -/
theorem c5_eviction_order
    (f1 f2 f3 f4 f5 f6 f7 : UploadedFile) (t1 t2 t3 t4 t5 t6 t7 : Nat)
    (d1 d2 d3 d4 d5 d6 d7 : Dataset) (s1 s2 s3 s4 s5 s6 s7 : Store)
    (h12 : t1 < t2) (h23 : t2 < t3) (h34 : t3 < t4) (h45 : t4 < t5)
    (h56 : t5 < t6) (h67 : t6 < t7)
    (p1 : (post (some f1) t1 emptyStore).1 = .created d1)
    (e1 : s1 = (post (some f1) t1 emptyStore).2)
    (p2 : (post (some f2) t2 s1).1 = .created d2)
    (e2 : s2 = (post (some f2) t2 s1).2)
    (p3 : (post (some f3) t3 s2).1 = .created d3)
    (e3 : s3 = (post (some f3) t3 s2).2)
    (p4 : (post (some f4) t4 s3).1 = .created d4)
    (e4 : s4 = (post (some f4) t4 s3).2)
    (p5 : (post (some f5) t5 s4).1 = .created d5)
    (e5 : s5 = (post (some f5) t5 s4).2)
    (p6 : (post (some f6) t6 s5).1 = .created d6)
    (e6 : s6 = (post (some f6) t6 s5).2)
    (p7 : (post (some f7) t7 s6).1 = .created d7)
    (e7 : s7 = (post (some f7) t7 s6).2) :
    listAll s7 = [d7, d6, d5, d4, d3] ∧
    s7.datasets = [d3, d4, d5, d6, d7] ∧
    s6.datasets = [d2, d3, d4, d5, d6] ∧
    download s7 d1.id = .notFound ∧
    download s7 d2.id = .notFound ∧
    d1.id ∉ s7.files ∧ d2.id ∉ s7.files := by
  rw [show emptyStore = (⟨[], [], 0⟩ : Store) from rfl] at p1 e1
  obtain ⟨i1, u1, q1⟩ := post_step_append f1 t1 [] [] 0 d1 p1 (by simp)
  rw [q1, i1] at e1
  simp only [List.nil_append] at e1
  rw [e1] at p2 e2
  obtain ⟨i2, u2, q2⟩ := post_step_append f2 t2 [d1] [0] 1 d2 p2 (by simp)
  rw [q2, i2] at e2
  simp only [List.cons_append, List.nil_append] at e2
  rw [e2] at p3 e3
  obtain ⟨i3, u3, q3⟩ := post_step_append f3 t3 [d1, d2] [0, 1] 2 d3 p3 (by simp)
  rw [q3, i3] at e3
  simp only [List.cons_append, List.nil_append] at e3
  rw [e3] at p4 e4
  obtain ⟨i4, u4, q4⟩ :=
    post_step_append f4 t4 [d1, d2, d3] [0, 1, 2] 3 d4 p4 (by simp)
  rw [q4, i4] at e4
  simp only [List.cons_append, List.nil_append] at e4
  rw [e4] at p5 e5
  obtain ⟨i5, u5, q5⟩ :=
    post_step_append f5 t5 [d1, d2, d3, d4] [0, 1, 2, 3] 4 d5 p5 (by simp)
  rw [q5, i5] at e5
  simp only [List.cons_append, List.nil_append] at e5
  rw [e5] at p6 e6
  have hold6 : ∀ e ∈ [d2, d3, d4, d5], ¬ e.uploadedAt < d1.uploadedAt := by
    intro e he
    simp only [List.mem_cons, List.not_mem_nil, or_false] at he
    rcases he with rfl | rfl | rfl | rfl
    · rw [u2, u1]; omega
    · rw [u3, u1]; omega
    · rw [u4, u1]; omega
    · rw [u5, u1]; omega
  have hid6 : ∀ e ∈ [d2, d3, d4, d5], e.id ≠ d1.id := by
    intro e he
    simp only [List.mem_cons, List.not_mem_nil, or_false] at he
    rcases he with rfl | rfl | rfl | rfl
    · rw [i2, i1]; omega
    · rw [i3, i1]; omega
    · rw [i4, i1]; omega
    · rw [i5, i1]; omega
  obtain ⟨i6, u6, q6⟩ :=
    post_step_evict f6 t6 d1 [d2, d3, d4, d5] [0, 1, 2, 3, 4] 5 d6 p6
      (by simp) hold6 (by rw [u1]; omega) hid6 (by rw [i1]; omega)
  rw [q6, i6, i1] at e6
  have hfilt6 : List.filter (fun i => i != (0 : Nat)) ([0, 1, 2, 3, 4] ++ [5]) =
      [1, 2, 3, 4, 5] := by decide
  rw [hfilt6] at e6
  simp only [List.cons_append, List.nil_append] at e6
  rw [e6] at p7 e7
  have hold7 : ∀ e ∈ [d3, d4, d5, d6], ¬ e.uploadedAt < d2.uploadedAt := by
    intro e he
    simp only [List.mem_cons, List.not_mem_nil, or_false] at he
    rcases he with rfl | rfl | rfl | rfl
    · rw [u3, u2]; omega
    · rw [u4, u2]; omega
    · rw [u5, u2]; omega
    · rw [u6, u2]; omega
  have hid7 : ∀ e ∈ [d3, d4, d5, d6], e.id ≠ d2.id := by
    intro e he
    simp only [List.mem_cons, List.not_mem_nil, or_false] at he
    rcases he with rfl | rfl | rfl | rfl
    · rw [i3, i2]; omega
    · rw [i4, i2]; omega
    · rw [i5, i2]; omega
    · rw [i6, i2]; omega
  obtain ⟨i7, u7, q7⟩ :=
    post_step_evict f7 t7 d2 [d3, d4, d5, d6] [1, 2, 3, 4, 5] 6 d7 p7
      (by simp) hold7 (by rw [u2]; omega) hid7 (by rw [i2]; omega)
  rw [q7, i7, i2] at e7
  have hfilt7 : List.filter (fun i => i != (1 : Nat)) ([1, 2, 3, 4, 5] ++ [6]) =
      [2, 3, 4, 5, 6] := by decide
  rw [hfilt7] at e7
  simp only [List.cons_append, List.nil_append] at e7
  refine ⟨?_, by rw [e7], by rw [e6], ?_, ?_, ?_, ?_⟩
  · rw [e7]
    simp only [listAll, List.foldl_cons, List.foldl_nil]
    rw [show insertDesc d3 ([] : List Dataset) = [d3] from rfl]
    rw [insertDesc_front d4 d3 [] (by rw [u3, u4]; omega)]
    rw [insertDesc_front d5 d4 [d3] (by rw [u4, u5]; omega)]
    rw [insertDesc_front d6 d5 [d4, d3] (by rw [u5, u6]; omega)]
    rw [insertDesc_front d7 d6 [d5, d4, d3] (by rw [u6, u7]; omega)]
  · rw [e7, i1]
    simp [download, List.find?, i3, i4, i5, i6, i7]
  · rw [e7, i2]
    simp [download, List.find?, i3, i4, i5, i6, i7]
  · rw [e7, i1]
    show (0 : Nat) ∉ [2, 3, 4, 5, 6]
    decide
  · rw [e7, i2]
    show (1 : Nat) ∉ [2, 3, 4, 5, 6]
    decide

/-- Witness for C5: seven concrete ingestions of the example table into
the empty store at times one to seven. -/
theorem c5_witness :
    listAll w5s7 = [w5d7, w5d6, w5d5, w5d4, w5d3] ∧
    w5s7.datasets = [w5d3, w5d4, w5d5, w5d6, w5d7] ∧
    w5s6.datasets = [w5d2, w5d3, w5d4, w5d5, w5d6] ∧
    download w5s7 w5d1.id = .notFound ∧
    download w5s7 w5d2.id = .notFound ∧
    w5d1.id ∉ w5s7.files ∧ w5d2.id ∉ w5s7.files :=
  c5_eviction_order wFileGood wFileGood wFileGood wFileGood wFileGood
    wFileGood wFileGood 1 2 3 4 5 6 7
    w5d1 w5d2 w5d3 w5d4 w5d5 w5d6 w5d7
    w5s1 w5s2 w5s3 w5s4 w5s5 w5s6 w5s7
    (by omega) (by omega) (by omega) (by omega) (by omega) (by omega)
    (by rfl) rfl (by rfl) rfl (by rfl) rfl (by rfl) rfl
    (by rfl) rfl (by rfl) rfl (by rfl) rfl

end ChemVis
